import Mathlib

/-!
Verification development for the yee-utils key custody and transaction
composition core (src/modules/base.rs, key.rs, tx.rs).

Bytes are modelled as `Nat` with the invariant `< 256` stated explicitly
where it matters; byte strings are `List Nat`; text is `List Char`.
External crates (the AES-CTR primitive, PBKDF2-SHA256, the signer, the
sharding function, the network) are modelled as explicit parameters so
that every theorem quantifies over their behaviour.
-/

namespace YeeUtils

/-! ## Hex codec (base.rs, `Hex`) -/

/-- Lowercase hex alphabet used by the hex crate encoder. -/
def hexDigitsLower : List Char := "0123456789abcdef".data

/-- Digit character of a nibble, lowercase, as produced by hex encode. -/
def natToHexDigit (n : Nat) : Char := hexDigitsLower.getD n '0'

/-- Numeric value of a hex digit character; both cases accepted, as in hex decode. -/
def hexDigitToNat? (c : Char) : Option Nat :=
  if '0' ≤ c ∧ c ≤ '9' then some (c.toNat - 48)
  else if 'a' ≤ c ∧ c ≤ 'f' then some (c.toNat - 87)
  else if 'A' ≤ c ∧ c ≤ 'F' then some (c.toNat - 55)
  else none

/-- hex crate encode: two lowercase digits per byte, high nibble first. -/
def hexEncode : List Nat → List Char
  | [] => []
  | b :: rest => natToHexDigit (b / 16) :: natToHexDigit (b % 16) :: hexEncode rest

/-- hex crate decode: consumes digit pairs; odd length or a non-digit yields none. -/
def hexDecodePairs : List Char → Option (List Nat)
  | [] => some []
  | [_] => none
  | c1 :: c2 :: rest =>
    match hexDigitToNat? c1, hexDigitToNat? c2, hexDecodePairs rest with
    | some hi, some lo, some bs => some ((16 * hi + lo) :: bs)
    | _, _, _ => none

/-- Rust `str::trim_start_matches` with pattern 0x: removes every leading
occurrence of the exact characters '0' 'x' (case sensitive, repeated). -/
def trimStartMatches0x : List Char → List Char
  | [] => []
  | [c] => [c]
  | c1 :: c2 :: rest =>
    if c1 = '0' ∧ c2 = 'x' then trimStartMatches0x rest else c1 :: c2 :: rest

/-- `Hex::from_str` (base.rs lines 79-85): strip leading 0x occurrences, then
hex-decode; any failure is the single error string Invalid hex. -/
def hexFromStr (s : List Char) : Except String (List Nat) :=
  match hexDecodePairs (trimStartMatches0x s) with
  | some b => Except.ok b
  | none => Except.error "Invalid hex"

/-- `Into<String> for Hex` (base.rs lines 93-97): 0x then lowercase hex. -/
def hexIntoString (b : List Nat) : List Char := '0' :: 'x' :: hexEncode b

/-- Modelled from the spec, for refinement comparison only (spec section 4.1):
strip ONE optional leading 0x or 0X, then require an even-length remainder of
hex digits of either case. -/
def specHexFromStr (s : List Char) : Except String (List Nat) :=
  let r :=
    match s with
    | '0' :: 'x' :: rest => rest
    | '0' :: 'X' :: rest => rest
    | other => other
  match hexDecodePairs r with
  | some b => Except.ok b
  | none => Except.error "Invalid hex"

/-! ### Hex codec lemmas -/

theorem hexDigit_roundtrip (d : Nat) (h : d < 16) :
    hexDigitToNat? (natToHexDigit d) = some d := by
  interval_cases d <;> decide

theorem natToHexDigit_mem (d : Nat) (h : d < 16) :
    natToHexDigit d ∈ hexDigitsLower := by
  interval_cases d <;> decide

theorem mem_hexEncode {b : List Nat} (h : ∀ x ∈ b, x < 256) :
    ∀ c ∈ hexEncode b, c ∈ hexDigitsLower := by
  induction b with
  | nil => intro c hc; simp [hexEncode] at hc
  | cons x rest ih =>
    intro c hc
    have hx : x < 256 := h x (List.mem_cons_self x rest)
    have h1 : x / 16 < 16 := by omega
    have h2 : x % 16 < 16 := by omega
    simp only [hexEncode, List.mem_cons] at hc
    rcases hc with rfl | rfl | hc
    · exact natToHexDigit_mem _ h1
    · exact natToHexDigit_mem _ h2
    · exact ih (fun y hy => h y (List.mem_cons_of_mem _ hy)) c hc

theorem trim_eq_self_of_no_x (l : List Char) (h : 'x' ∉ l) :
    trimStartMatches0x l = l := by
  match l with
  | [] => rfl
  | [c] => rfl
  | c1 :: c2 :: rest =>
    have hc : ¬(c1 = '0' ∧ c2 = 'x') := by
      rintro ⟨h1, h2⟩
      exact h (by simp [h2])
    simp [trimStartMatches0x, hc]

theorem trim_cons_0x (l : List Char) :
    trimStartMatches0x ('0' :: 'x' :: l) = trimStartMatches0x l := by
  simp [trimStartMatches0x]

theorem hexDecodePairs_hexEncode (b : List Nat) (h : ∀ x ∈ b, x < 256) :
    hexDecodePairs (hexEncode b) = some b := by
  induction b with
  | nil => rfl
  | cons x rest ih =>
    have hx : x < 256 := h x (List.mem_cons_self x rest)
    have h1 : x / 16 < 16 := by omega
    have h2 : x % 16 < 16 := by omega
    have e1 := hexDigit_roundtrip _ h1
    have e2 := hexDigit_roundtrip _ h2
    have ihr := ih (fun y hy => h y (List.mem_cons_of_mem _ hy))
    simp only [hexEncode, hexDecodePairs, e1, e2, ihr]
    have : 16 * (x / 16) + x % 16 = x := by omega
    simp [this]

theorem length_hexEncode (b : List Nat) : (hexEncode b).length = 2 * b.length := by
  induction b with
  | nil => rfl
  | cons x rest ih => simp [hexEncode, ih]; omega

theorem hexDecodePairs_isSome_iff : (s : List Char) →
    ((hexDecodePairs s).isSome ↔
      s.length % 2 = 0 ∧ ∀ c ∈ s, (hexDigitToNat? c).isSome)
  | [] => by simp [hexDecodePairs]
  | [c] => by simp [hexDecodePairs]
  | c1 :: c2 :: rest => by
    have ih := hexDecodePairs_isSome_iff rest
    have hlen : (c1 :: c2 :: rest).length % 2 = rest.length % 2 := by
      simp [List.length_cons]; omega
    rcases h1 : hexDigitToNat? c1 with _ | v1 <;>
      rcases h2 : hexDigitToNat? c2 with _ | v2 <;>
        rcases h3 : hexDecodePairs rest with _ | bs <;>
          simp_all [hexDecodePairs, h1, h2, h3, hlen]

/-! ### Claim theorems for the hex codec -/

/-- C3 (amended): hex decode repeatedly strips the exact lowercase prefix 0x
(never 0X), accepts hex digits of either case, and fails with the invalid
encoding error exactly when the remainder after stripping has odd length or
contains a non-hex-digit character. -/
theorem hex_decode_error_characterisation (s : List Char) :
    (hexFromStr s = Except.error "Invalid hex" ↔
      ¬((trimStartMatches0x s).length % 2 = 0 ∧
        ∀ c ∈ trimStartMatches0x s, (hexDigitToNat? c).isSome))
    ∧ hexFromStr s =
        (match hexDecodePairs (trimStartMatches0x s) with
          | some b => Except.ok b
          | none => Except.error "Invalid hex") := by
  refine ⟨?_, rfl⟩
  have hiff := hexDecodePairs_isSome_iff (trimStartMatches0x s)
  rcases h : hexDecodePairs (trimStartMatches0x s) with _ | b
  · simp only [h, Option.isSome_none, Bool.false_eq_true, false_iff] at hiff
    simp [hexFromStr, h, hiff]
  · simp only [h, Option.isSome_some, true_iff] at hiff
    simp only [hexFromStr, h]
    constructor
    · intro hcontra
      exact absurd hcontra (by simp)
    · intro hcontra
      exact absurd hiff hcontra

/-- C3 (counterexample): the spec's one-optional-prefix rule and the code
disagree in both directions. Stripping is case sensitive, so 0Xab is rejected
by the code although the spec accepts it; stripping is repeated, so 0x0xab is
accepted by the code although the spec rejects it. -/
theorem hex_decode_prefix_counterexample :
    hexFromStr "0Xab".data = Except.error "Invalid hex"
    ∧ specHexFromStr "0Xab".data = Except.ok [171]
    ∧ hexFromStr "0x0xab".data = Except.ok [171]
    ∧ specHexFromStr "0x0xab".data = Except.error "Invalid hex" := by
  refine ⟨by rfl, by rfl, by rfl, by rfl⟩

/-- C7: hex encode always succeeds, producing 0x followed by two lowercase hex
digits per byte, and hex decode of that text returns the original bytes. -/
theorem hex_encode_roundtrip (b : List Nat) (h : ∀ x ∈ b, x < 256) :
    hexIntoString b = '0' :: 'x' :: hexEncode b
    ∧ (hexEncode b).length = 2 * b.length
    ∧ (∀ c ∈ hexEncode b, c ∈ hexDigitsLower)
    ∧ hexFromStr (hexIntoString b) = Except.ok b := by
  refine ⟨rfl, length_hexEncode b, mem_hexEncode h, ?_⟩
  have hx : 'x' ∉ hexEncode b := by
    intro hmem
    have := mem_hexEncode h _ hmem
    simp [hexDigitsLower] at this
  have htrim : trimStartMatches0x (hexIntoString b) = hexEncode b := by
    simp only [hexIntoString, trim_cons_0x]
    exact trim_eq_self_of_no_x _ hx
  simp [hexFromStr, htrim, hexDecodePairs_hexEncode b h]

/-- C7 witness at a concrete byte list. -/
theorem hex_encode_roundtrip_witness :
    hexIntoString [0, 171, 255] = '0' :: 'x' :: hexEncode [0, 171, 255]
    ∧ (hexEncode [0, 171, 255]).length = 2 * ([0, 171, 255] : List Nat).length
    ∧ (∀ c ∈ hexEncode [0, 171, 255], c ∈ hexDigitsLower)
    ∧ hexFromStr (hexIntoString [0, 171, 255]) = Except.ok [0, 171, 255] :=
  hex_encode_roundtrip [0, 171, 255] (by decide)

/-! ## Password-derived key schedule and keystore cipher (base.rs lines 193-293)

The PBKDF2-SHA256 derivation (ring crate) and the AES-256-CTR keystream
(rust-crypto crate) are external primitives; they are modelled as explicit
byte oracles so every theorem holds for each possible primitive. -/

/-- External cryptographic primitives: byte i of the PBKDF2-SHA256 output for
(password, salt, iterations), and byte i of the AES-256-CTR keystream for
(key, iv). -/
structure CryptoPrims where
  pbkdf2Byte : List Nat → List Nat → Nat → Nat → Nat
  ctrByte : List Nat → List Nat → Nat → Nat

/-- SALT constant (base.rs line 193): the bytes of yee-utils-key. -/
def SALT : List Nat := "yee-utils-key".data.map Char.toNat

/-- ITERATIONS constant (base.rs line 194). -/
def ITERATIONS : Nat := 1024

/-- KEYSTORE_VERSION constant (base.rs line 196). -/
def KEYSTORE_VERSION : List Char := "1.0".data

/-- password_to_key (base.rs lines 281-293): derive 64 bytes with
PBKDF2-SHA256 over the fixed salt and iteration count, split as the first 32
bytes of cipher key and the last 32 bytes of IV. -/
def password_to_key (P : CryptoPrims) (password : List Nat) : List Nat × List Nat :=
  let result := (List.range 64).map (fun i => P.pbkdf2Byte password SALT ITERATIONS i % 256)
  (result.take 32, result.drop 32)

/-- XOR of a byte list with the keystream from index i on: the CTR-mode core
shared by encryption and decryption. -/
def xorKeystream (ks : Nat → Nat) : Nat → List Nat → List Nat
  | _, [] => []
  | i, b :: rest => (b ^^^ (ks i % 256)) :: xorKeystream ks (i + 1) rest

/-- aes_enc (base.rs lines 255-268): CTR encryption is XOR with the keystream
of the key schedule derived from the password. -/
def aes_enc (P : CryptoPrims) (plain password : List Nat) : Except String (List Nat) :=
  let ki := password_to_key P password
  Except.ok (xorKeystream (P.ctrByte ki.1 ki.2) 0 plain)

/-- aes_dec (base.rs lines 270-279): CTR decryption is the identical
keystream XOR. -/
def aes_dec (P : CryptoPrims) (cipher password : List Nat) : Except String (List Nat) :=
  let ki := password_to_key P password
  Except.ok (xorKeystream (P.ctrByte ki.1 ki.2) 0 cipher)

/-! ### Cipher lemmas -/

theorem xorKeystream_length (ks : Nat → Nat) (i : Nat) (l : List Nat) :
    (xorKeystream ks i l).length = l.length := by
  induction l generalizing i with
  | nil => rfl
  | cons b rest ih => simp [xorKeystream, ih]

theorem xorKeystream_involutive (ks : Nat → Nat) (i : Nat) (l : List Nat) :
    xorKeystream ks i (xorKeystream ks i l) = l := by
  induction l generalizing i with
  | nil => rfl
  | cons b rest ih =>
    simp only [xorKeystream, ih, List.cons.injEq, and_true]
    exact Nat.xor_cancel_right _ _

theorem xorKeystream_lt (ks : Nat → Nat) (i : Nat) (l : List Nat)
    (h : ∀ x ∈ l, x < 256) : ∀ y ∈ xorKeystream ks i l, y < 256 := by
  induction l generalizing i with
  | nil => intro y hy; simp [xorKeystream] at hy
  | cons b rest ih =>
    intro y hy
    simp only [xorKeystream, List.mem_cons] at hy
    rcases hy with rfl | hy
    · have hb : b < 2 ^ 8 := h b (List.mem_cons_self b rest)
      have hk : ks i % 256 < 2 ^ 8 := by omega
      have := Nat.xor_lt_two_pow hb hk
      omega
    · exact ih (i + 1) (fun x hx => h x (List.mem_cons_of_mem _ hx)) y hy

/-- C6: for every ciphertext and every password (wrong ones included),
keystore decryption succeeds by itself and returns exactly as many bytes as
the ciphertext has; there is no integrity check to detect a wrong password. -/
theorem aes_dec_never_fails (P : CryptoPrims) (cipher password : List Nat) :
    ∃ out, aes_dec P cipher password = Except.ok out ∧ out.length = cipher.length :=
  ⟨_, rfl, xorKeystream_length ..⟩

/-! ## Keystore container and file operations (base.rs lines 198-253, key.rs lines 383-405) -/

/-- Double quote character. -/
def dq : Char := Char.ofNat 34

/-- Opening brace character. -/
def lcurl : Char := Char.ofNat 123

/-- Closing brace character. -/
def rcurl : Char := Char.ofNat 125

/-- KeyStore container (base.rs lines 198-202). -/
structure KeyStore where
  version : List Char
  secret_key : List Char
deriving DecidableEq

/-- Leading literal of the serde_json rendering of a KeyStore. -/
def jsonOpen : List Char := [lcurl, dq] ++ "version".data ++ [dq, ':', dq]

/-- Middle literal of the rendering, between the two field values. -/
def jsonMidTail : List Char := [','] ++ [dq] ++ "secret_key".data ++ [dq, ':', dq]

/-- The middle literal starts with the closing quote of the version value. -/
def jsonMid : List Char := dq :: jsonMidTail

/-- Trailing literal of the rendering. -/
def jsonClose : List Char := dq :: [rcurl]

/-- serde_json::to_string of a KeyStore in declaration field order; the values
this program stores (a version literal and hex text) need no escaping. -/
def keystoreToJson (ks : KeyStore) : List Char :=
  jsonOpen ++ ks.version ++ jsonMid ++ ks.secret_key ++ jsonClose

/-- Consume an expected literal from the front of the input. -/
def stripLit : List Char → List Char → Option (List Char)
  | [], s => some s
  | _ :: _, [] => none
  | p :: ps, c :: cs => if c = p then stripLit ps cs else none

/-- serde_json::from_slice for a KeyStore, modelled on the canonical rendering
produced by keystoreToJson: two quoted string fields without escapes. -/
def keystoreFromJson (s : List Char) : Option KeyStore :=
  match stripLit jsonOpen s with
  | none => none
  | some s1 =>
    let v := s1.takeWhile (fun c => c != dq)
    let s2 := s1.dropWhile (fun c => c != dq)
    match stripLit jsonMid s2 with
    | none => none
    | some s3 =>
      let k := s3.takeWhile (fun c => c != dq)
      let s4 := s3.dropWhile (fun c => c != dq)
      match stripLit jsonClose s4 with
      | none => none
      | some s5 => if s5 = [] then some ⟨v, k⟩ else none

/-- File system state: contents by path. -/
def FS : Type := String → Option (List Char)

/-- get_from_file (base.rs lines 247-253). -/
def get_from_file (path : String) (fs : FS) : Except String (List Char) :=
  match fs path with
  | some content => Except.ok content
  | none => Except.error "Open file failed"

/-- put_to_file (base.rs lines 241-245): File::create semantics, replacing any
existing content at the path. -/
def put_to_file (content : List Char) (path : String) (fs : FS) :
    Except String Unit × FS :=
  (Except.ok (), fun p => if p = path then some content else fs p)

/-- base put_key (base.rs lines 204-219): encrypt, hex-wrap, serialize, write. -/
def base_put_key (P : CryptoPrims) (secret_key password : List Nat) (path : String)
    (fs : FS) : Except String Unit × FS :=
  match aes_enc P secret_key password with
  | Except.error e => (Except.error e, fs)
  | Except.ok cipher =>
    let keystore : KeyStore := ⟨KEYSTORE_VERSION, hexIntoString cipher⟩
    put_to_file (keystoreToJson keystore) path fs

/-- base get_key (base.rs lines 221-239): read, parse, check version, hex
decode, decrypt. -/
def base_get_key (P : CryptoPrims) (password : List Nat) (path : String) (fs : FS) :
    Except String (List Nat) :=
  match get_from_file path fs with
  | Except.error e => Except.error e
  | Except.ok content =>
    match keystoreFromJson content with
    | none => Except.error "Keystore decode failed"
    | some keystore =>
      if keystore.version ≠ KEYSTORE_VERSION then Except.error "Invalid keystore version"
      else
        match hexDecodePairs (trimStartMatches0x keystore.secret_key) with
        | none => Except.error "Keystore decode failed"
        | some cipher => aes_dec P cipher password

/-- key.rs put_key command (lines 383-405): refuse an existing file, parse the
secret key hex, validate it with the external signer, then store. The two
hidden prompts are modelled as the input parameters. -/
def key_put_key (P : CryptoPrims) (validate_secret_key : List Nat → Bool)
    (secret_key_input : List Char) (password : List Nat) (path : String) (fs : FS) :
    Except String Unit × FS :=
  match fs path with
  | some _ => (Except.error "Keystore file exists", fs)
  | none =>
    match hexFromStr secret_key_input with
    | Except.error _ => (Except.error "Invalid secret key", fs)
    | Except.ok secret_key =>
      if validate_secret_key secret_key then
        base_put_key P secret_key password path fs
      else (Except.error "Invalid secret key", fs)

/-! ### Keystore lemmas -/

theorem stripLit_append (p r : List Char) : stripLit p (p ++ r) = some r := by
  induction p with
  | nil => rfl
  | cons c cs ih => simp [stripLit, ih]

theorem takeWhile_append_dq (v r : List Char) (h : ∀ c ∈ v, c ≠ dq) :
    (v ++ dq :: r).takeWhile (fun c => c != dq) = v := by
  induction v with
  | nil => simp [List.takeWhile_cons]
  | cons a t ih =>
    have ha : (a != dq) = true := bne_iff_ne.mpr (h a (List.mem_cons_self a t))
    simp [List.cons_append, List.takeWhile_cons, ha,
      ih (fun c hc => h c (List.mem_cons_of_mem _ hc))]

theorem dropWhile_append_dq (v r : List Char) (h : ∀ c ∈ v, c ≠ dq) :
    (v ++ dq :: r).dropWhile (fun c => c != dq) = dq :: r := by
  induction v with
  | nil => simp [List.dropWhile_cons]
  | cons a t ih =>
    have ha : (a != dq) = true := bne_iff_ne.mpr (h a (List.mem_cons_self a t))
    simp [List.cons_append, List.dropWhile_cons, ha,
      ih (fun c hc => h c (List.mem_cons_of_mem _ hc))]

theorem hexDigitsLower_ne_dq : ∀ c ∈ hexDigitsLower, c ≠ dq := by decide

theorem KEYSTORE_VERSION_ne_dq : ∀ c ∈ KEYSTORE_VERSION, c ≠ dq := by decide

theorem keystoreFromJson_toJson (ks : KeyStore)
    (hv : ∀ c ∈ ks.version, c ≠ dq) (hk : ∀ c ∈ ks.secret_key, c ≠ dq) :
    keystoreFromJson (keystoreToJson ks) = some ks := by
  have hshape : keystoreToJson ks =
      jsonOpen ++ (ks.version ++ dq :: (jsonMidTail ++ (ks.secret_key ++ dq :: [rcurl]))) := by
    simp [keystoreToJson, jsonMid, jsonClose, List.append_assoc]
  have h1 := takeWhile_append_dq ks.version (jsonMidTail ++ (ks.secret_key ++ dq :: [rcurl])) hv
  have h2 := dropWhile_append_dq ks.version (jsonMidTail ++ (ks.secret_key ++ dq :: [rcurl])) hv
  have hmid : (dq :: (jsonMidTail ++ (ks.secret_key ++ dq :: [rcurl])) : List Char) =
      jsonMid ++ (ks.secret_key ++ dq :: [rcurl]) := by
    simp [jsonMid]
  have h3 := takeWhile_append_dq ks.secret_key [rcurl] hk
  have h4 := dropWhile_append_dq ks.secret_key [rcurl] hk
  have hclose : (dq :: [rcurl] : List Char) = jsonClose ++ ([] : List Char) := by
    simp [jsonClose]
  rw [hshape]
  simp only [keystoreFromJson, stripLit_append]
  simp only [h1, h2]
  rw [hmid]
  simp only [stripLit_append]
  simp only [h3, h4]
  rw [hclose]
  simp only [stripLit_append]
  simp

/-! ### Claim theorems for the keystore -/

/-- C2: the put_key command against an existing path fails with the file
exists error and returns the file system unchanged; nothing is written. -/
theorem put_key_existing_path_fails (P : CryptoPrims)
    (validate_secret_key : List Nat → Bool) (input : List Char)
    (password : List Nat) (path : String) (fs : FS) (b : List Char)
    (h : fs path = some b) :
    key_put_key P validate_secret_key input password path fs =
      (Except.error "Keystore file exists", fs) := by
  simp [key_put_key, h]

/-- C2 witness at a concrete file system holding one file. -/
theorem put_key_existing_path_fails_witness :
    key_put_key ⟨fun _ _ _ _ => 0, fun _ _ _ => 0⟩ (fun _ => true) "0x00".data []
        "ks.json" (fun p => if p = "ks.json" then some "old".data else none) =
      (Except.error "Keystore file exists",
        fun p => if p = "ks.json" then some "old".data else none) :=
  put_key_existing_path_fails _ _ _ _ _ _ "old".data (by simp)

/-- Loading from a path holding the canonical keystore rendering of a cipher
amounts to decrypting that cipher. -/
theorem base_get_key_of_content (P : CryptoPrims) (password : List Nat)
    (path : String) (fs : FS) (cipher : List Nat) (hc : ∀ x ∈ cipher, x < 256)
    (hfs : fs path = some (keystoreToJson ⟨KEYSTORE_VERSION, hexIntoString cipher⟩)) :
    base_get_key P password path fs = aes_dec P cipher password := by
  have hparse : keystoreFromJson
      (keystoreToJson ⟨KEYSTORE_VERSION, hexIntoString cipher⟩) =
      some ⟨KEYSTORE_VERSION, hexIntoString cipher⟩ := by
    refine keystoreFromJson_toJson ⟨KEYSTORE_VERSION, hexIntoString cipher⟩
      (fun c hmem => KEYSTORE_VERSION_ne_dq c hmem) ?_
    intro c hmem
    simp only [hexIntoString, List.mem_cons] at hmem
    rcases hmem with rfl | rfl | hmem
    · decide
    · decide
    · exact hexDigitsLower_ne_dq c (mem_hexEncode hc c hmem)
  have htrim : trimStartMatches0x (hexIntoString cipher) = hexEncode cipher := by
    have hx : 'x' ∉ hexEncode cipher := by
      intro hmem
      have := mem_hexEncode hc _ hmem
      simp [hexDigitsLower] at this
    simp only [hexIntoString, trim_cons_0x]
    exact trim_eq_self_of_no_x _ hx
  simp only [base_get_key, get_from_file, hfs, hparse, htrim,
    hexDecodePairs_hexEncode cipher hc]
  simp

/-- C5: saving a secret under a password to a fresh path and loading from the
same path with the same password returns exactly the secret, for every choice
of the external cipher primitives. -/
theorem keystore_roundtrip (P : CryptoPrims) (secret password : List Nat)
    (path : String) (fs : FS) (_hfresh : fs path = none)
    (hb : ∀ x ∈ secret, x < 256) :
    (base_put_key P secret password path fs).1 = Except.ok ()
    ∧ base_get_key P password path (base_put_key P secret password path fs).2 =
        Except.ok secret := by
  refine ⟨rfl, ?_⟩
  have hcip : ∀ x ∈ xorKeystream
      (P.ctrByte (password_to_key P password).1 (password_to_key P password).2) 0 secret,
      x < 256 := xorKeystream_lt _ _ _ hb
  rw [base_get_key_of_content P password path _ _ hcip (by
    show (if path = path then _ else _) = _
    simp)]
  simp [aes_dec, xorKeystream_involutive]

/-- C5 witness at a concrete secret, password and primitive choice. -/
theorem keystore_roundtrip_witness :
    (base_put_key ⟨fun _ _ _ i => i, fun _ _ i => i + 7⟩ [1, 2, 250] [9, 9]
        "w.json" (fun _ => none)).1 = Except.ok ()
    ∧ base_get_key ⟨fun _ _ _ i => i, fun _ _ i => i + 7⟩ [9, 9] "w.json"
        (base_put_key ⟨fun _ _ _ i => i, fun _ _ i => i + 7⟩ [1, 2, 250] [9, 9]
          "w.json" (fun _ => none)).2 = Except.ok [1, 2, 250] :=
  keystore_roundtrip _ _ _ _ _ (by simp) (by decide)

/-- C9: a keystore file whose parsed version differs from the supported
constant is rejected with the version error; no key bytes are produced. -/
theorem keystore_version_mismatch (P : CryptoPrims) (password : List Nat)
    (path : String) (fs : FS) (content : List Char) (ks : KeyStore)
    (hf : fs path = some content)
    (hp : keystoreFromJson content = some ks)
    (hv : ks.version ≠ KEYSTORE_VERSION) :
    base_get_key P password path fs = Except.error "Invalid keystore version" := by
  simp [base_get_key, get_from_file, hf, hp, hv]

/-- C9 witness at a concrete file carrying version 2.0. -/
theorem keystore_version_mismatch_witness :
    base_get_key ⟨fun _ _ _ _ => 0, fun _ _ _ => 0⟩ [] "v.json"
      (fun p => if p = "v.json" then
        some (keystoreToJson ⟨"2.0".data, "0x00".data⟩) else none) =
      Except.error "Invalid keystore version" :=
  keystore_version_mismatch _ _ _ _ _ ⟨"2.0".data, "0x00".data⟩ (by simp)
    (keystoreFromJson_toJson _ (by decide) (by decide)) (by decide)

/-! ## JSON-RPC client (base.rs lines 144-191) and nonce lookup (tx.rs lines 260-278)

The network exchange (HTTP post and JSON body decoding) is external; it is
modelled as an oracle producing either a transport or decode failure string
or an already-decoded response envelope. -/

/-- RpcError payload (base.rs lines 187-191). -/
structure RpcError where
  code : Int
  message : String
deriving DecidableEq

/-- RpcResponse envelope (base.rs lines 179-185). -/
structure RpcResponse (T : Type) where
  jsonrpc : String
  result : Option T
  error : Option RpcError
  id : Int

/-- rpc_call (base.rs lines 144-169): propagate the transport or decode
failure, otherwise return the decoded envelope as-is; the error member is
never inspected. -/
def rpc_call {R : Type} (exchange : Except String (RpcResponse R)) :
    Except String (RpcResponse R) :=
  match exchange with
  | Except.error e => Except.error e
  | Except.ok resp => Except.ok resp

/-- BigUint::from_bytes_le on storage bytes. -/
def bytesToNatLE : List Nat → Nat
  | [] => 0
  | b :: rest => b % 256 + 256 * bytesToNatLE rest

/-- BigUint::to_u64().unwrap_or(0): values at or above 2 to the 64 become 0. -/
def toU64OrZero (n : Nat) : Nat := if n < 18446744073709551616 then n else 0

/-- get_nonce (tx.rs lines 260-278): storage lookup through rpc_call; only the
result member of the envelope is read, and a missing value becomes nonce 0.
The blake2-derived storage key is computed by external crates and does not
influence the returned value, so it is not modelled. -/
def get_nonce (exchange : Except String (RpcResponse (List Nat))) :
    Except String Nat :=
  match rpc_call exchange with
  | Except.error e => Except.error e
  | Except.ok resp =>
    let n := match resp.result with
      | some bytes => bytesToNatLE bytes
      | none => 0
    Except.ok (toU64OrZero n)

/-- Nonce resolution step of compose (tx.rs lines 195-198): an explicit nonce
argument is used verbatim, otherwise the nonce is fetched. -/
def resolve_nonce (nonceArg : Option Nat)
    (exchange : Except String (RpcResponse (List Nat))) : Except String Nat :=
  match nonceArg with
  | some n => Except.ok n
  | none => get_nonce exchange

/-! ### Claim theorems for the RPC client -/

/-- C1 (counterexample): an envelope carrying a non-null error and a null
result makes the nonce fetch succeed with 0 instead of yielding the carried
RpcError. -/
theorem rpc_error_treated_as_empty_counterexample :
    (RpcResponse.mk "2.0" (none : Option (List Nat))
        (some ⟨-32601, "Method not found"⟩) 1).error.isSome = true
    ∧ get_nonce (Except.ok (RpcResponse.mk "2.0" (none : Option (List Nat))
        (some ⟨-32601, "Method not found"⟩) 1)) = Except.ok 0 := by
  exact ⟨rfl, rfl⟩

/-- C1 (amended): when the envelope carries a non-null error, rpc_call still
returns the whole envelope as a success without inspecting the error member,
and the nonce fetch reads only the result member, so an error response with a
null result resolves to nonce 0 rather than to an RpcError failure. -/
theorem rpc_error_envelope_passthrough (resp : RpcResponse (List Nat))
    (_herr : resp.error.isSome = true) (hres : resp.result = none) :
    rpc_call (Except.ok resp) = Except.ok resp
    ∧ get_nonce (Except.ok resp) = Except.ok 0 := by
  refine ⟨rfl, ?_⟩
  simp [get_nonce, rpc_call, hres, toU64OrZero]

/-- C1 amended witness at a concrete error envelope. -/
theorem rpc_error_envelope_passthrough_witness :
    rpc_call (Except.ok (RpcResponse.mk "2.0" (none : Option (List Nat))
        (some ⟨7, "server error"⟩) 1)) =
      Except.ok (RpcResponse.mk "2.0" (none : Option (List Nat))
        (some ⟨7, "server error"⟩) 1)
    ∧ get_nonce (Except.ok (RpcResponse.mk "2.0" (none : Option (List Nat))
        (some ⟨7, "server error"⟩) 1)) = Except.ok 0 :=
  rpc_error_envelope_passthrough _ rfl rfl

/-- C8: with no explicit nonce argument and a storage lookup that returns no
stored value, the resolved nonce is exactly 0 and resolution succeeds. -/
theorem nonce_default_zero (resp : RpcResponse (List Nat))
    (hres : resp.result = none) :
    resolve_nonce none (Except.ok resp) = Except.ok 0 := by
  simp [resolve_nonce, get_nonce, rpc_call, hres, toU64OrZero]

/-- C8 witness at a concrete empty storage response. -/
theorem nonce_default_zero_witness :
    resolve_nonce none (Except.ok (RpcResponse.mk "2.0"
      (none : Option (List Nat)) none 1)) = Except.ok 0 :=
  nonce_default_zero _ rfl

/-! ## Transaction composer (tx.rs lines 159-258)

The signer and sharding crates are external capability interfaces; they are
modelled as an explicit structure of oracles. The chain-state query
(meter::get_block_info, not part of the three core modules) is modelled as an
oracle returning best number, best hash text and optional shard info, exactly
the tuple the composer consumes. A Rust panic (copy_from_slice on mismatched
lengths, or an expect) is a distinct outcome from a returned error. -/

/-- SECRET_KEY_LEN of the external yee_signer crate (sr25519 secret key). -/
def SECRET_KEY_LEN : Nat := 64

/-- HASH_LEN of the external yee_signer crate (32-byte block hash). -/
def HASH_LEN : Nat := 32

/-- External signer and sharding interfaces consumed by compose. -/
structure TxExternals (Call Tx : Type) where
  from_secret_key : List Nat → Except String (List Nat)
  shard_num_for_bytes : List Nat → Nat → Option Nat
  build_call : List Char → Except String Call
  build_tx : List Nat → Nat → Nat → Nat → List Nat → Call → Except String Tx
  tx_encode : Tx → List Nat
  to_address : List Nat → Bool → Except String (List Char)

/-- Terminal output of compose (tx.rs lines 218-247). -/
structure ComposeOutput where
  shard_num : Nat
  shard_count : Nat
  sender_address : List Char
  sender_testnet_address : List Char
  nonce : Nat
  period : Nat
  current : Nat
  current_hash : List Nat
  raw : List Nat

/-- Outcome of running compose: a value, a returned error, or a Rust panic. -/
inductive ComposeResult (A : Type) where
  | ok : A → ComposeResult A
  | err : String → ComposeResult A
  | panicked : String → ComposeResult A
deriving DecidableEq

/-- compose (tx.rs lines 159-250), step for step: chain state, best-hash hex
decode, shard info presence, keystore load, key pair recovery, shard
derivation (an expect, so a missing shard number panics), the shard-match
check, nonce resolution, call building, the two fixed-length array copies
(panicking on length mismatch exactly as copy_from_slice does), transaction
building and output assembly. -/
def compose {Call Tx : Type} (E : TxExternals Call Tx) (P : CryptoPrims)
    (periodArg nonceArg : Option Nat) (callArg : List Char)
    (password : List Nat) (path : String) (fs : FS)
    (chain : Except String (Nat × List Char × Option (Nat × Nat)))
    (nonceExchange : Except String (RpcResponse (List Nat))) :
    ComposeResult ComposeOutput :=
  let period := periodArg.getD 64
  match chain with
  | Except.error e => ComposeResult.err e
  | Except.ok (best_number, best_hash_str, shard_info) =>
    match hexDecodePairs (trimStartMatches0x best_hash_str) with
    | none => ComposeResult.err "Invalid best hash"
    | some best_hash =>
      match shard_info with
      | none => ComposeResult.err "Invalid shard info"
      | some (shard_num, shard_count) =>
        match base_get_key P password path fs with
        | Except.error e => ComposeResult.err e
        | Except.ok secret_key =>
          match E.from_secret_key secret_key with
          | Except.error e => ComposeResult.err e
          | Except.ok public_key =>
            match E.shard_num_for_bytes public_key shard_count with
            | none => ComposeResult.panicked "qed"
            | some shard_num_for_public_key =>
              if shard_num_for_public_key ≠ shard_num then
                ComposeResult.err "the shard number of the secret key and the node not match"
              else
                match resolve_nonce nonceArg nonceExchange with
                | Except.error e => ComposeResult.err e
                | Except.ok nonce =>
                  match E.build_call callArg with
                  | Except.error e => ComposeResult.err e
                  | Except.ok call =>
                    if secret_key.length = SECRET_KEY_LEN then
                      if best_hash.length = HASH_LEN then
                        match E.build_tx secret_key nonce period best_number best_hash call with
                        | Except.error e => ComposeResult.err e
                        | Except.ok tx =>
                          match E.to_address public_key true, E.to_address public_key false with
                          | Except.ok addr, Except.ok taddr =>
                            ComposeResult.ok ⟨shard_num, shard_count, addr, taddr,
                              nonce, period, best_number, best_hash, E.tx_encode tx⟩
                          | _, _ => ComposeResult.err "Address encode failed"
                      else ComposeResult.panicked "copy_from_slice length mismatch"
                    else ComposeResult.panicked "copy_from_slice length mismatch"

/-! ### Claim theorems for the composer -/

/-- C4: whenever the shard number derived from the recovered key differs from
the node-reported shard number, compose fails with the shard mismatch error
and produces no output bytes. -/
theorem compose_shard_mismatch {Call Tx : Type} (E : TxExternals Call Tx)
    (P : CryptoPrims) (periodArg nonceArg : Option Nat) (callArg : List Char)
    (password : List Nat) (path : String) (fs : FS)
    (nonceExchange : Except String (RpcResponse (List Nat)))
    (best_number : Nat) (best_hash_str : List Char) (best_hash : List Nat)
    (shard_num shard_count : Nat) (secret_key public_key : List Nat) (s : Nat)
    (hh : hexDecodePairs (trimStartMatches0x best_hash_str) = some best_hash)
    (hk : base_get_key P password path fs = Except.ok secret_key)
    (hp : E.from_secret_key secret_key = Except.ok public_key)
    (hs : E.shard_num_for_bytes public_key shard_count = some s)
    (hne : s ≠ shard_num) :
    compose E P periodArg nonceArg callArg password path fs
        (Except.ok (best_number, best_hash_str, some (shard_num, shard_count)))
        nonceExchange =
      ComposeResult.err "the shard number of the secret key and the node not match" := by
  simp [compose, hh, hk, hp, hs, hne]

/-- C4 witness: a concrete run in which the key derives shard 1 while the
node reports shard 0. -/
theorem compose_shard_mismatch_witness :
    compose
        (⟨fun _ => Except.ok [1], fun _ _ => some 1, fun _ => Except.ok (),
          fun _ _ _ _ _ _ => Except.ok (), fun _ => [], fun _ _ => Except.ok []⟩ :
          TxExternals Unit Unit)
        ⟨fun _ _ _ _ => 0, fun _ _ _ => 0⟩ none (some 2) [] [] "c4.json"
        (fun p => if p = "c4.json" then
          some (keystoreToJson ⟨KEYSTORE_VERSION, hexIntoString [0]⟩) else none)
        (Except.ok (45, "00".data, some (0, 4)))
        (Except.error "unused") =
      ComposeResult.err "the shard number of the secret key and the node not match" :=
  compose_shard_mismatch _ _ _ _ _ _ _ _ _ 45 "00".data [0] 0 4 [0] [1] 1
    (by rfl) (by rfl) (by rfl) (by rfl) (by decide)

/-- C10: once every earlier step has succeeded, compose panics through
copy_from_slice rather than returning a typed error when the decrypted secret
key is not SECRET_KEY_LEN bytes long, and likewise when the decoded best
block hash is not HASH_LEN bytes long. -/
theorem compose_length_mismatch_panics {Call Tx : Type} (E : TxExternals Call Tx)
    (P : CryptoPrims) (periodArg nonceArg : Option Nat) (callArg : List Char)
    (password : List Nat) (path : String) (fs : FS)
    (nonceExchange : Except String (RpcResponse (List Nat)))
    (best_number : Nat) (best_hash_str : List Char) (best_hash : List Nat)
    (shard_num shard_count : Nat) (secret_key public_key : List Nat)
    (nonce : Nat) (call : Call)
    (hh : hexDecodePairs (trimStartMatches0x best_hash_str) = some best_hash)
    (hk : base_get_key P password path fs = Except.ok secret_key)
    (hp : E.from_secret_key secret_key = Except.ok public_key)
    (hs : E.shard_num_for_bytes public_key shard_count = some shard_num)
    (hn : resolve_nonce nonceArg nonceExchange = Except.ok nonce)
    (hc : E.build_call callArg = Except.ok call) :
    (secret_key.length ≠ SECRET_KEY_LEN →
      compose E P periodArg nonceArg callArg password path fs
          (Except.ok (best_number, best_hash_str, some (shard_num, shard_count)))
          nonceExchange =
        ComposeResult.panicked "copy_from_slice length mismatch")
    ∧ (secret_key.length = SECRET_KEY_LEN → best_hash.length ≠ HASH_LEN →
      compose E P periodArg nonceArg callArg password path fs
          (Except.ok (best_number, best_hash_str, some (shard_num, shard_count)))
          nonceExchange =
        ComposeResult.panicked "copy_from_slice length mismatch") := by
  constructor
  · intro hlen
    simp [compose, hh, hk, hp, hs, hn, hc, hlen]
  · intro hlen hhash
    simp [compose, hh, hk, hp, hs, hn, hc, hlen, hhash]

/-- C10 witness: a concrete run in which the decrypted secret key has length
1, so compose reaches the copy and panics. -/
theorem compose_length_mismatch_panics_witness :
    compose
        (⟨fun _ => Except.ok [1], fun _ _ => some 0, fun _ => Except.ok (),
          fun _ _ _ _ _ _ => Except.ok (), fun _ => [], fun _ _ => Except.ok []⟩ :
          TxExternals Unit Unit)
        ⟨fun _ _ _ _ => 0, fun _ _ _ => 0⟩ none (some 2) [] [] "c10.json"
        (fun p => if p = "c10.json" then
          some (keystoreToJson ⟨KEYSTORE_VERSION, hexIntoString [0]⟩) else none)
        (Except.ok (45, "00".data, some (0, 4)))
        (Except.error "unused") =
      ComposeResult.panicked "copy_from_slice length mismatch" :=
  (compose_length_mismatch_panics _ _ _ _ _ _ _ _ _ 45 "00".data [0] 0 4 [0] [1] 2 ()
    (by rfl) (by rfl) (by rfl) (by rfl) (by rfl) (by rfl)).1 (by decide)
